import Mathlib

/-!
Verification of the streaming proxy subsystem of the StreamBot repository
(Telegram-Download-Link-Generator): the chunk-aligned byte-range fetch engine,
the HTTP range handling of the download route, the intelligent client
allocator, and the public link-id decoder.  Each definition is a shallow
embedding of the Python function named in its doc comment; bytes are modelled
as `Nat` values and byte strings as `List Nat`.
-/

set_option linter.unusedVariables false

namespace StreamBot

/-- Python slice `l[a:b]` on a byte string, for nonnegative bounds:
keep the indices in `[a, b)`, clamping at the length. -/
def pySlice (l : List Nat) (a b : Nat) : List Nat := (l.take b).drop a

/-- Model of `StreamBot/utils/utils.py::calculate_chunk_parameters`.
Returns `(offset, first_part_cut, last_part_cut, part_count)` for a requested
byte range `[from_bytes, until_bytes]` and a chunk size.  The source computes
`math.ceil((until_bytes + 1) / chunk_size)` and `math.floor(offset / chunk_size)`
on nonnegative integers; for `chunk_size > 0` these are exactly `Nat`
ceiling-division `⌈/⌉` and `Nat` division. -/
def calculate_chunk_parameters (from_bytes until_bytes chunk_size : Nat) :
    Nat × Nat × Nat × Nat :=
  let offset := from_bytes - from_bytes % chunk_size
  let first_part_cut := from_bytes - offset
  let last_part_cut := until_bytes % chunk_size + 1
  let part_count := (until_bytes + 1) ⌈/⌉ chunk_size - offset / chunk_size
  (offset, first_part_cut, last_part_cut, part_count)

/-- Model of `StreamBot/utils/utils.py::validate_streaming_parameters`.
Arguments are `Int` because the source explicitly rejects negative values. -/
def validate_streaming_parameters (from_bytes until_bytes file_size chunk_size : Int) : Bool :=
  if from_bytes < 0 || until_bytes < 0 then false
  else if from_bytes > until_bytes then false
  else if until_bytes ≥ file_size then false
  else if file_size > 2 * 1024 * 1024 * 1024 then false
  else if until_bytes - from_bytes + 1 ≤ 0 then false
  else if chunk_size ≤ 0 || chunk_size > 1024 * 1024 * 2 then false
  else true

/-- Errors an upstream chunk read can raise inside
`StreamBot/utils/custom_dl.py::ByteStreamer.yield_file`.  `timeoutError` and
`attributeError` are the two exception classes the source catches and discards
(`except (TimeoutError, AttributeError): pass`); every other exception class is
represented by `otherError` and escapes the generator. -/
inductive UpstreamErr
  | timeoutError
  | attributeError
  | otherError (tag : Nat)
deriving DecidableEq

/-- Whether `yield_file` swallows the error (its `except` clause). -/
def suppressedErr : UpstreamErr → Bool
  | .timeoutError => true
  | .attributeError => true
  | .otherError _ => false

/-- One upstream fixed-chunk read (`upload.GetFile(location, offset, limit)`)
against a simulated backend holding the byte string `file`: up to `limit`
bytes starting at `offset`. -/
def getFile (file : List Nat) (offset limit : Nat) : List Nat :=
  (file.drop offset).take limit

/-- The cut applied to one raw chunk inside the `yield_file` loop
(`StreamBot/utils/custom_dl.py` lines 201-208, identical to
`StreamBot/web/web.py::stream_file_chunks` lines 224-236): both cuts on a
single part, the first cut on the first part, the last cut on the last part,
middle parts unmodified. -/
def trimChunk (part_count current_part first_part_cut last_part_cut : Nat)
    (chunk : List Nat) : List Nat :=
  if part_count = 1 then (chunk.take last_part_cut).drop first_part_cut
  else if current_part = 1 then chunk.drop first_part_cut
  else if current_part = part_count then chunk.take last_part_cut
  else chunk

/-- The read/trim/yield loop of `ByteStreamer.yield_file`, over an arbitrary
backend `read : offset → bytes-or-error`.  Returns the yielded slices and the
error that escaped the generator, if any.  The loop reads at the current
offset, stops on an empty chunk, yields the trimmed slice, and breaks once
`current_part + 1 > part_count` — so with the fuel `part_count + 1` used by
`yield_file` below the fuel never runs out and the `0` case is unreachable. -/
def yieldGo (read : Nat → Except UpstreamErr (List Nat))
    (first_part_cut last_part_cut part_count chunk_size : Nat) :
    Nat → Nat → Nat → List (List Nat) × Option UpstreamErr
  | 0, _, _ => ([], none)
  | fuel + 1, current_part, offset =>
    match read offset with
    | .error e => ([], if suppressedErr e then none else some e)
    | .ok chunk =>
      if chunk = [] then ([], none)
      else
        let piece := trimChunk part_count current_part first_part_cut last_part_cut chunk
        if current_part + 1 > part_count then ([piece], none)
        else
          let rest := yieldGo read first_part_cut last_part_cut part_count chunk_size fuel
            (current_part + 1) (offset + chunk_size)
          (piece :: rest.1, rest.2)

/-- Model of `StreamBot/utils/custom_dl.py::ByteStreamer.yield_file`:
`part_count` sequential reads of `chunk_size` bytes starting at `offset`,
advancing by `chunk_size`, each trimmed by `trimChunk`, starting at
`current_part = 1`. -/
def yield_file (read : Nat → Except UpstreamErr (List Nat))
    (offset first_part_cut last_part_cut part_count chunk_size : Nat) :
    List (List Nat) × Option UpstreamErr :=
  yieldGo read first_part_cut last_part_cut part_count chunk_size (part_count + 1) 1 offset

/-- The simulated fixed-chunk backend with no failures: every read returns
the `chunk_size`-byte slice of `file` at the requested offset. -/
def pureRead (file : List Nat) (chunk_size : Nat) : Nat → Except UpstreamErr (List Nat) :=
  fun offset => .ok (getFile file offset chunk_size)

/-- A backend that behaves like `pureRead` except at offset `failOff`,
where the read raises `e`. -/
def failRead (file : List Nat) (chunk_size failOff : Nat) (e : UpstreamErr) :
    Nat → Except UpstreamErr (List Nat) :=
  fun offset => if offset = failOff then .error e else .ok (getFile file offset chunk_size)

lemma plan_eq (f u k : Nat) (hk : 0 < k) (hfu : f ≤ u) :
    calculate_chunk_parameters f u k =
      (k * (f / k), f % k, u % k + 1, u / k + 1 - f / k) := by
  have h1 := Nat.div_add_mod f k
  have hoff : f - f % k = k * (f / k) := by omega
  have hceil : (u + 1) ⌈/⌉ k = u / k + 1 := by
    rw [Nat.ceilDiv_eq_add_pred_div]
    have h2 := Nat.div_add_mod u k
    have hm2 : u % k < k := Nat.mod_lt _ hk
    have e : u + 1 + k - 1 = u % k + k * (u / k + 1) := by
      rw [Nat.mul_add, Nat.mul_one]; omega
    rw [e, Nat.add_mul_div_left _ _ hk, Nat.div_eq_of_lt hm2, Nat.zero_add]
  have hodiv : k * (f / k) / k = f / k := Nat.mul_div_cancel_left _ hk
  simp only [calculate_chunk_parameters, Prod.mk.injEq]
  refine ⟨hoff, by omega, trivial, ?_⟩
  rw [hoff, hceil, hodiv]

lemma getFile_ne_nil (file : List Nat) (off k : Nat) (hoff : off < file.length)
    (hk : 0 < k) : getFile file off k ≠ [] := by
  unfold getFile
  intro h
  have hl := congrArg List.length h
  rw [List.length_take, List.length_drop, List.length_nil] at hl
  omega

/-- One unfolding step of the `yield_file` loop. -/
lemma yieldGo_step (read : Nat → Except UpstreamErr (List Nat))
    (fc lc pc k fuel cp off : Nat) :
    yieldGo read fc lc pc k (fuel + 1) cp off =
      match read off with
      | .error e => ([], if suppressedErr e then none else some e)
      | .ok chunk =>
        if chunk = [] then ([], none)
        else
          if cp + 1 > pc then ([trimChunk pc cp fc lc chunk], none)
          else
            (trimChunk pc cp fc lc chunk ::
              (yieldGo read fc lc pc k fuel (cp + 1) (off + k)).1,
             (yieldGo read fc lc pc k fuel (cp + 1) (off + k)).2) := by
  simp only [yieldGo]

/-- On the failure-free backend, as long as every remaining chunk start is
inside the file, the `yield_file` loop runs for exactly the remaining
`d + 1` parts and yields the trimmed chunk of each. -/
lemma yieldGo_pure (file : List Nat) (fc lc pc k : Nat) (hk : 0 < k) :
    ∀ (d cp off : Nat), cp + d = pc →
      (∀ i, i ≤ d → off + i * k < file.length) →
      yieldGo (pureRead file k) fc lc pc k (d + 2) cp off =
        (((List.range (d + 1)).map fun i =>
            trimChunk pc (cp + i) fc lc (getFile file (off + i * k) k)), none) := by
  intro d
  induction d with
  | zero =>
    intro cp off hcp hlen
    have h0 : off < file.length := by simpa using hlen 0 (Nat.le_refl 0)
    have hne := getFile_ne_nil file off k h0 hk
    rw [show (0 : Nat) + 2 = 1 + 1 from rfl, yieldGo_step]
    simp only [pureRead]
    rw [if_neg hne, if_pos (by omega)]
    simp [List.range_succ]
  | succ d ih =>
    intro cp off hcp hlen
    have h0 : off < file.length := by simpa using hlen 0 (Nat.zero_le _)
    have hne := getFile_ne_nil file off k h0 hk
    have hrec := ih (cp + 1) (off + k) (by omega) (fun i hi => by
      have := hlen (i + 1) (by omega)
      have e : (i + 1) * k = i * k + k := Nat.succ_mul i k
      omega)
    rw [show d + 1 + 2 = d + 2 + 1 from rfl, yieldGo_step]
    simp only [pureRead]
    rw [if_neg hne, if_neg (by omega)]
    rw [hrec]
    simp only [Prod.mk.injEq, and_true]
    rw [List.range_succ_eq_map (d + 1), List.map_cons, List.map_map]
    simp only [Nat.add_zero, Nat.zero_mul, List.cons.injEq, true_and]
    apply List.map_congr_left
    intro a _
    simp only [Function.comp_apply, Nat.succ_eq_add_one]
    have e1 : cp + (a + 1) = cp + 1 + a := by omega
    have e2 : off + (a + 1) * k = off + k + a * k := by
      have : (a + 1) * k = a * k + k := Nat.succ_mul a k
      omega
    rw [e1, e2]

/-- Concatenating chunks with the final one cut at `lc` yields a contiguous
`m * k + lc`-byte window of the file. -/
lemma flatten_take_lc (file : List Nat) (k lc : Nat) (hlc : lc ≤ k) :
    ∀ (m off : Nat),
      (((List.range (m + 1)).map fun i =>
          if i = m then (getFile file (off + i * k) k).take lc
          else getFile file (off + i * k) k).flatten)
        = (file.drop off).take (m * k + lc) := by
  intro m
  induction m with
  | zero =>
    intro off
    simp [List.range_succ, getFile, List.take_take, Nat.min_eq_left hlc]
  | succ m ih =>
    intro off
    rw [List.range_succ_eq_map (m + 1)]
    simp only [List.map_cons, List.map_map, List.flatten_cons]
    rw [if_neg (by omega : ¬ (0 = m + 1))]
    have htail : List.map ((fun i => if i = m + 1 then (getFile file (off + i * k) k).take lc
        else getFile file (off + i * k) k) ∘ Nat.succ) (List.range (m + 1)) =
        List.map (fun i => if i = m then (getFile file (off + k + i * k) k).take lc
        else getFile file (off + k + i * k) k) (List.range (m + 1)) := by
      apply List.map_congr_left
      intro a _
      simp only [Function.comp_apply, Nat.succ_eq_add_one]
      have e2 : off + (a + 1) * k = off + k + a * k := by
        rw [Nat.add_mul, Nat.one_mul]; omega
      by_cases hae : a = m
      · subst hae
        rw [if_pos rfl, if_pos rfl, e2]
      · rw [if_neg (by omega), if_neg hae, e2]
    rw [htail, ih (off + k)]
    rw [Nat.zero_mul, Nat.add_zero, getFile, ← List.drop_drop, ← List.take_add]
    congr 1
    have hmk : (m + 1) * k = m * k + k := by rw [Nat.add_mul, Nat.one_mul]
    omega

/-- The full round trip for one aligned read plan, phrased over the quotients
and remainders of `from_bytes` and `until_bytes` by the chunk size. -/
lemma roundtrip_aux (file : List Nat) (k q1 r1 q2 r2 : Nat) (hk : 0 < k)
    (hr1 : r1 < k) (hr2 : r2 < k) (hq : q1 ≤ q2)
    (hlen : k * q2 + r2 < file.length) :
    ((yieldGo (pureRead file k) r1 (r2 + 1) (q2 + 1 - q1) k ((q2 + 1 - q1) + 1) 1
        (k * q1)).1).flatten
      = (file.drop (k * q1 + r1)).take (k * q2 + r2 + 1 - (k * q1 + r1)) := by
  have hpc : q2 + 1 - q1 = (q2 - q1) + 1 := by omega
  have hchunks : ∀ i, i ≤ q2 - q1 → k * q1 + i * k < file.length := by
    intro i hi
    have h1 : i * k ≤ (q2 - q1) * k := Nat.mul_le_mul_right k hi
    have h2 : (q2 - q1) * k = q2 * k - q1 * k := Nat.sub_mul q2 q1 k
    have h3 : q1 * k ≤ q2 * k := Nat.mul_le_mul_right k hq
    have h4 : k * q2 = q2 * k := Nat.mul_comm k q2
    have h5 : k * q1 = q1 * k := Nat.mul_comm k q1
    omega
  have hgo := yieldGo_pure file r1 (r2 + 1) (q2 + 1 - q1) k hk (q2 - q1) 1 (k * q1)
    (by omega) hchunks
  rw [hpc, show (q2 - q1) + 1 + 1 = (q2 - q1) + 2 from rfl]
  rw [hpc] at hgo
  rw [hgo]
  rcases Nat.eq_or_lt_of_le hq with heq | hlt
  · subst heq
    simp only [Nat.sub_self, List.range_succ, List.range_zero, List.nil_append,
      List.map_cons, List.map_nil, List.flatten_cons, List.flatten_nil,
      List.append_nil, Nat.zero_mul, Nat.add_zero]
    rw [trimChunk, if_pos rfl]
    rw [getFile, List.take_take, Nat.min_eq_left (by omega), List.drop_take,
      List.drop_drop]
    congr 1
    omega
  · have hrange : (q2 - q1) + 1 = ((q2 - q1 - 1) + 1) + 1 := by omega
    rw [hrange, List.range_succ_eq_map ((q2 - q1 - 1) + 1)]
    simp only [List.map_cons, List.map_map, List.flatten_cons, Nat.add_zero,
      Nat.zero_mul]
    rw [trimChunk, if_neg (by omega), if_pos rfl]
    have htail : List.map ((fun i => trimChunk ((q2 - q1 - 1) + 1 + 1) (1 + i) r1 (r2 + 1)
          (getFile file (k * q1 + i * k) k)) ∘ Nat.succ) (List.range ((q2 - q1 - 1) + 1)) =
        List.map (fun a => if a = q2 - q1 - 1
          then (getFile file (k * q1 + k + a * k) k).take (r2 + 1)
          else getFile file (k * q1 + k + a * k) k) (List.range ((q2 - q1 - 1) + 1)) := by
      apply List.map_congr_left
      intro a _
      simp only [Function.comp_apply, Nat.succ_eq_add_one]
      have e2 : k * q1 + (a + 1) * k = k * q1 + k + a * k := by
        rw [Nat.add_mul, Nat.one_mul]; omega
      rw [trimChunk, if_neg (by omega)]
      rw [if_neg (by omega)]
      by_cases hae : a = q2 - q1 - 1
      · subst hae
        rw [if_pos (by omega), if_pos rfl, e2]
      · rw [if_neg (by omega), if_neg hae, e2]
    rw [htail, flatten_take_lc file k (r2 + 1) (by omega) (q2 - q1 - 1) (k * q1 + k)]
    have hhead : (getFile file (k * q1) k).drop r1
        = List.take (k - r1) (List.drop (k * q1 + r1) file) := by
      rw [getFile, List.drop_take, List.drop_drop]
    have htail2 : List.drop (k * q1 + k) file
        = List.drop (k - r1) (List.drop (k * q1 + r1) file) := by
      rw [List.drop_drop]
      congr 1
      omega
    rw [hhead, htail2, ← List.take_add]
    congr 1
    have hek : (q2 - q1 - 1) * k = q2 * k - q1 * k - k := by
      rw [Nat.sub_mul, Nat.sub_mul, Nat.one_mul]
    have hmono : q1 * k + k ≤ q2 * k := by
      have h5 := Nat.mul_le_mul_right k (show q1 + 1 ≤ q2 by omega)
      rw [Nat.add_mul, Nat.one_mul] at h5; exact h5
    have hcq1 : k * q1 = q1 * k := Nat.mul_comm k q1
    have hcq2 : k * q2 = q2 * k := Nat.mul_comm k q2
    omega

/-- C1: for every valid requested byte range `[from, until]` with
`from ≤ until < size` over the failure-free fixed-chunk backend, concatenating
the trimmed chunk sequence produced by `yield_file` on the plan computed by
`calculate_chunk_parameters` equals exactly the bytes `[from, until]` of the
source file. -/
theorem chunk_roundtrip (file : List Nat) (from_bytes until_bytes chunk_size : Nat)
    (hk : 0 < chunk_size) (hfu : from_bytes ≤ until_bytes)
    (hus : until_bytes < file.length) :
    ((yield_file (pureRead file chunk_size)
        (calculate_chunk_parameters from_bytes until_bytes chunk_size).1
        (calculate_chunk_parameters from_bytes until_bytes chunk_size).2.1
        (calculate_chunk_parameters from_bytes until_bytes chunk_size).2.2.1
        (calculate_chunk_parameters from_bytes until_bytes chunk_size).2.2.2
        chunk_size).1).flatten = pySlice file from_bytes (until_bytes + 1) := by
  have hf0 := Nat.div_add_mod from_bytes chunk_size
  have hu0 := Nat.div_add_mod until_bytes chunk_size
  have haux := roundtrip_aux file chunk_size (from_bytes / chunk_size)
    (from_bytes % chunk_size) (until_bytes / chunk_size) (until_bytes % chunk_size)
    hk (Nat.mod_lt _ hk) (Nat.mod_lt _ hk) (Nat.div_le_div_right hfu)
    (by rw [hu0]; exact hus)
  rw [hf0, hu0] at haux
  rw [plan_eq from_bytes until_bytes chunk_size hk hfu]
  rw [yield_file, pySlice, List.drop_take]
  exact haux

/-- If the read at part index `j` (0-based) fails, the loop yields exactly the
prefix of `j` slices the failure-free run would yield, then surfaces the error
unless it is one of the two suppressed exception classes. -/
lemma yieldGo_failAt (file : List Nat) (fc lc pc k : Nat) (hk : 0 < k)
    (e : UpstreamErr) :
    ∀ (j fuel cp off : Nat), cp + j ≤ pc → j + 1 ≤ fuel →
      (∀ i, i < j → off + i * k < file.length) →
      yieldGo (failRead file k (off + j * k) e) fc lc pc k fuel cp off
        = ((yieldGo (pureRead file k) fc lc pc k fuel cp off).1.take j,
           if suppressedErr e = true then none else some e) := by
  intro j
  induction j with
  | zero =>
    intro fuel cp off hcp hfuel hlen
    obtain ⟨m, rfl⟩ : ∃ m, fuel = m + 1 := ⟨fuel - 1, by omega⟩
    rw [yieldGo_step]
    have hoff : off + 0 * k = off := by omega
    rw [hoff]
    simp [failRead]
  | succ j ih =>
    intro fuel cp off hcp hfuel hlen
    obtain ⟨m, rfl⟩ : ∃ m, fuel = m + 1 := ⟨fuel - 1, by omega⟩
    have h0 : off < file.length := by simpa using hlen 0 (by omega)
    have hne := getFile_ne_nil file off k h0 hk
    have hkj : 0 < (j + 1) * k := Nat.mul_pos (Nat.succ_pos j) hk
    have hro : failRead file k (off + (j + 1) * k) e off = .ok (getFile file off k) := by
      simp only [failRead]
      rw [if_neg (by omega)]
    have e2 : off + (j + 1) * k = off + k + j * k := by
      rw [Nat.add_mul, Nat.one_mul]; omega
    rw [yieldGo_step, yieldGo_step, hro]
    simp only [pureRead]
    rw [if_neg hne, if_neg hne, if_neg (by omega : ¬ cp + 1 > pc),
      if_neg (by omega : ¬ cp + 1 > pc)]
    rw [e2, ih m (cp + 1) (off + k) (by omega) (by omega) (fun i hi => by
      have := hlen (i + 1) (by omega)
      have e3 : (i + 1) * k = i * k + k := by rw [Nat.add_mul, Nat.one_mul]
      omega)]
    simp [List.take_succ_cons]

/-- C9 (amended): if the upstream read at part index `j < part_count` fails
with error `e`, `yield_file` yields exactly the slices the failure-free run
would have yielded before that read; `e` then escapes to the caller unless it
is a `TimeoutError` or `AttributeError`, which the engine swallows, silently
ending the sequence. -/
theorem yield_file_error_propagation (file : List Nat) (fc lc pc k off j : Nat)
    (e : UpstreamErr) (hk : 0 < k) (hj : j < pc)
    (hlen : ∀ i, i < j → off + i * k < file.length) :
    yield_file (failRead file k (off + j * k) e) off fc lc pc k
      = ((yield_file (pureRead file k) off fc lc pc k).1.take j,
         if suppressedErr e = true then none else some e) := by
  rw [yield_file, yield_file]
  exact yieldGo_failAt file fc lc pc k hk e j (pc + 1) 1 off (by omega) (by omega) hlen

/-- Closed witness for C9's amended theorem: on the 4-byte file `[0,1,2,3]`
with 2-byte chunks and the full-range plan `(0, 0, 2, 2)`, an RPC failure at
the second read (offset 2) escapes after the first slice. -/
theorem yield_file_error_propagation_witness :
    0 < 2 ∧ 1 < 2 ∧
    yield_file (failRead [0, 1, 2, 3] 2 (0 + 1 * 2) (.otherError 0)) 0 0 2 2 2
      = ((yield_file (pureRead [0, 1, 2, 3] 2) 0 0 2 2 2).1.take 1,
         if suppressedErr (.otherError 0) = true then none else some (.otherError 0)) :=
  ⟨by decide, by decide,
    yield_file_error_propagation [0, 1, 2, 3] 0 2 2 2 0 1 (.otherError 0)
      (by decide) (by decide) (fun i hi => by interval_cases i; decide)⟩

/-- Counterexample to C9 as stated: the chunk plan for range `[0, 3]` of a
4-byte file with 2-byte chunks is `(0, 0, 2, 2)`, and when the second upstream
read (offset 2) fails with a `TimeoutError`, the engine yields the first slice
and then ends with no error at all — the timeout does not propagate to the
caller. -/
theorem yield_file_timeout_swallowed :
    calculate_chunk_parameters 0 3 2 = (0, 0, 2, 2) ∧
    yield_file (failRead [0, 1, 2, 3] 2 2 .timeoutError) 0 0 2 2 2
      = ([[0, 1]], none) := by
  constructor
  · rfl
  · rfl

/-- C2: the computed chunk plan satisfies the spec's formulas:
`alignedOffset = from - (from mod chunkSize)` (hence divisible by the chunk
size), `firstCut = from - alignedOffset`, `lastCut = (until mod chunkSize) + 1`
and `partCount = ceil((until+1)/chunkSize) - floor(alignedOffset/chunkSize)`,
the latter with exact rational ceiling and floor. -/
theorem calculate_chunk_parameters_formulas (f u k : Nat) (hk : 0 < k) (hfu : f ≤ u) :
    (calculate_chunk_parameters f u k).1 = f - f % k ∧
    (calculate_chunk_parameters f u k).1 % k = 0 ∧
    (calculate_chunk_parameters f u k).2.1 = f - (calculate_chunk_parameters f u k).1 ∧
    (calculate_chunk_parameters f u k).2.2.1 = u % k + 1 ∧
    (((calculate_chunk_parameters f u k).2.2.2 : ℤ)
      = ⌈((u : ℚ) + 1) / (k : ℚ)⌉
        - ⌊(((calculate_chunk_parameters f u k).1 : ℚ)) / (k : ℚ)⌋) := by
  have hp := plan_eq f u k hk hfu
  rw [hp]
  dsimp only
  have hdm := Nat.div_add_mod f k
  have hk0 : (k : ℚ) ≠ 0 := Nat.cast_ne_zero.mpr (by omega)
  have hkq : (0 : ℚ) < (k : ℚ) := by exact_mod_cast hk
  refine ⟨by omega, Nat.mul_mod_right k _, by omega, rfl, ?_⟩
  have hfloor : ⌊((k * (f / k) : ℕ) : ℚ) / (k : ℚ)⌋ = ((f / k : ℕ) : ℤ) := by
    have hdiv : ((k * (f / k) : ℕ) : ℚ) / (k : ℚ) = ((f / k : ℕ) : ℚ) := by
      push_cast
      rw [mul_div_cancel_left₀ _ hk0]
    rw [hdiv, Int.floor_natCast]
  have hceil : ⌈((u : ℚ) + 1) / (k : ℚ)⌉ = ((u / k : ℕ) : ℤ) + 1 := by
    rw [Int.ceil_eq_iff]
    have hudm := Nat.div_add_mod u k
    have humod : u % k < k := Nat.mod_lt u hk
    have hb : k * (u / k) = (u / k) * k := Nat.mul_comm k (u / k)
    constructor
    · push_cast
      rw [add_sub_cancel_right, lt_div_iff₀ hkq]
      have hn : u / k * k < u + 1 := by omega
      exact_mod_cast hn
    · push_cast
      rw [div_le_iff₀ hkq]
      have hn : u + 1 ≤ (u / k + 1) * k := by
        rw [Nat.add_mul, Nat.one_mul]
        omega
      calc ((u : ℚ) + 1) ≤ (((u / k + 1) * k : ℕ) : ℚ) := by exact_mod_cast hn
        _ = (((u / k : ℕ) : ℚ) + 1) * k := by push_cast; ring
  rw [hceil, hfloor]
  have hdle : f / k ≤ u / k := Nat.div_le_div_right hfu
  push_cast [Nat.cast_sub (show f / k ≤ u / k + 1 by omega)]
  ring

/-- Closed witness for C1: the bytes `[1, 3]` of a five-byte file with 2-byte
chunks round-trip through the chunk engine. -/
theorem chunk_roundtrip_witness :
    0 < 2 ∧ 1 ≤ 3 ∧ 3 < ([10, 11, 12, 13, 14] : List Nat).length ∧
    ((yield_file (pureRead [10, 11, 12, 13, 14] 2)
        (calculate_chunk_parameters 1 3 2).1
        (calculate_chunk_parameters 1 3 2).2.1
        (calculate_chunk_parameters 1 3 2).2.2.1
        (calculate_chunk_parameters 1 3 2).2.2.2
        2).1).flatten = pySlice [10, 11, 12, 13, 14] 1 4 :=
  ⟨by decide, by decide, by decide,
    chunk_roundtrip [10, 11, 12, 13, 14] 1 3 2 (by decide) (by decide) (by decide)⟩

/-- Closed witness for C2 at `from = 5`, `until = 13`, `chunkSize = 4`. -/
theorem calculate_chunk_parameters_formulas_witness :
    0 < 4 ∧ 5 ≤ 13 ∧
    ((calculate_chunk_parameters 5 13 4).1 = 5 - 5 % 4 ∧
     (calculate_chunk_parameters 5 13 4).1 % 4 = 0 ∧
     (calculate_chunk_parameters 5 13 4).2.1 = 5 - (calculate_chunk_parameters 5 13 4).1 ∧
     (calculate_chunk_parameters 5 13 4).2.2.1 = 13 % 4 + 1 ∧
     (((calculate_chunk_parameters 5 13 4).2.2.2 : ℤ)
       = ⌈((13 : ℚ) + 1) / (4 : ℚ)⌉
         - ⌊(((calculate_chunk_parameters 5 13 4).1 : ℚ)) / (4 : ℚ)⌋)) :=
  ⟨by decide, by decide,
    calculate_chunk_parameters_formulas 5 13 4 (by decide) (by decide)⟩

/-! ### The intelligent client allocator
(`StreamBot/allocation/intelligent_allocator.py`).  Clients are identified by
their numeric id (`client.me.id`); task ids are strings.  The per-allocator
dictionaries become functions from client id, with the `.get` defaults of the
source folded in (`client_states.get(id, IDLE)`). -/

/-- `ClientStatus` of the source: `IDLE`, `BUSY`, `FLOOD_WAIT`. -/
inductive ClientStatus
  | idle
  | busy
  | floodWait
deriving DecidableEq

/-- Pointwise update of a map modelled as a function. -/
def updF {α : Type} (f : Nat → α) (i : Nat) (v : α) : Nat → α :=
  fun j => if j = i then v else f j

/-- The mutable state of `IntelligentClientAllocator` together with the pool
view it reads (`client_manager.all_clients` and each client's
`is_connected`). -/
structure AllocState where
  all_clients : List Nat
  connected : Nat → Bool
  client_states : Nat → ClientStatus
  client_tasks : Nat → Option String
  flood_wait_until : Nat → Option Nat
  small_preferred_index : Nat
  large_preferred_index : Nat
  last_client_count : Nat
  small_file_threshold_bytes : Nat

/-- The pure partition step of `_calculate_client_groups` on the list of
connected clients: small-preferred prefix of size
`((N - 2) + (N % 2)) / 2` for `N > 2`, both groups equal to the whole pool for
`N == 1`, and the split `([first], [second])` for `N == 2` (which the source
writes as `[all_clients[0]]` / `[all_clients[1]]`). -/
def _client_groups (all_clients : List Nat) : List Nat × List Nat :=
  let total_clients := all_clients.length
  if total_clients ≤ 2 then
    if total_clients = 1 then (all_clients, all_clients)
    else (all_clients.take 1, all_clients.drop 1)
  else
    let small_group_size := ((total_clients - 2) + total_clients % 2) / 2
    (all_clients.take small_group_size, all_clients.drop small_group_size)

/-- The connected-client list `_calculate_client_groups` starts from. -/
def connectedClients (st : AllocState) : List Nat :=
  st.all_clients.filter st.connected

/-- `_calculate_client_groups`: filter the pool down to connected clients,
reset both round-robin indices when the connected count changed, and
partition into the two preference groups. -/
def _calculate_client_groups (st : AllocState) : (List Nat × List Nat) × AllocState :=
  let all_clients := connectedClients st
  let total_clients := all_clients.length
  let st := if total_clients ≠ st.last_client_count then
      { st with small_preferred_index := 0, large_preferred_index := 0,
                last_client_count := total_clients }
    else st
  (_client_groups all_clients, st)

/-- `_is_client_available`: a connected client is available when it is not in
an unexpired flood wait and its status is `IDLE`.  (When the flood wait has
expired the source also deletes the entry and writes `IDLE` back before
reading the status — bookkeeping with the same availability outcome.) -/
def _is_client_available (st : AllocState) (now : Nat) (client_id : Nat) : Bool :=
  if ¬ st.connected client_id then false
  else
    match st.flood_wait_until client_id with
    | some t => decide (t ≤ now)
    | none => st.client_states client_id == .idle

/-- `_select_client_round_robin`: pick `available_clients[index]` after
clamping an out-of-range index to `0`, then advance the group's index
modulo the list length. -/
def _select_client_round_robin (st : AllocState) (available_clients : List Nat)
    (is_small_group : Bool) : Option (Nat × AllocState) :=
  if available_clients = [] then none
  else
    let idx := if is_small_group then st.small_preferred_index else st.large_preferred_index
    let i := if idx ≥ available_clients.length then 0 else idx
    let selected := available_clients.getD i 0
    if is_small_group then
      some (selected, { st with small_preferred_index := (i + 1) % available_clients.length })
    else
      some (selected, { st with large_preferred_index := (i + 1) % available_clients.length })

/-- Result of `acquire_client_for_download`: an allocated client id plus the
new allocator state, or the `NoClientsAvailableError` the source raises. -/
inductive AllocResult
  | allocated (client : Nat) (st : AllocState)
  | noClientsAvailable

/-- `acquire_client_for_download`: classify the file as small
(`< small_file_threshold_bytes`) or large, reset the round-robin indices when
the connected-client count changed, try the size-matched group round-robin
over its currently available members, overflow small → large on exhaustion
(never large → small), mark the selected client `BUSY` with the task id. -/
def acquire_client_for_download (st : AllocState) (now : Nat) (file_size : Nat)
    (task_id : String) : AllocResult :=
  let isSmall := file_size < st.small_file_threshold_bytes
  let gs := _calculate_client_groups st
  let small_preferred := gs.1.1
  let large_preferred := gs.1.2
  let st := gs.2
  let selected : Option (Nat × AllocState) :=
    if isSmall then
      match _select_client_round_robin st
          (small_preferred.filter (_is_client_available st now)) true with
      | some r => some r
      | none => _select_client_round_robin st
          (large_preferred.filter (_is_client_available st now)) false
    else
      _select_client_round_robin st
        (large_preferred.filter (_is_client_available st now)) false
  match selected with
  | some (client_id, st') =>
    .allocated client_id
      { st' with client_states := updF st'.client_states client_id .busy,
                 client_tasks := updF st'.client_tasks client_id (some task_id) }
  | none => .noClientsAvailable

/-- `release_client`: release only when the recorded task id matches; when no
task is recorded, still force `IDLE`; when a different task is recorded,
leave the state untouched. -/
def release_client (st : AllocState) (client_id : Nat) (task_id : String) : AllocState :=
  match st.client_tasks client_id with
  | some current_task_for_client =>
    if current_task_for_client = task_id then
      { st with client_tasks := updF st.client_tasks client_id none,
                client_states := updF st.client_states client_id .idle }
    else st
  | none => { st with client_states := updF st.client_states client_id .idle }

lemma calc_groups_fst (st : AllocState) :
    (_calculate_client_groups st).1 = _client_groups (connectedClients st) := rfl

lemma calc_groups_avail (st : AllocState) (now : Nat) :
    _is_client_available (_calculate_client_groups st).2 now
      = _is_client_available st now := by
  funext c
  simp only [_calculate_client_groups]
  split
  · rfl
  · rfl

lemma calc_groups_states (st : AllocState) :
    (_calculate_client_groups st).2.client_states = st.client_states ∧
    (_calculate_client_groups st).2.client_tasks = st.client_tasks := by
  simp only [_calculate_client_groups]
  split
  · exact ⟨rfl, rfl⟩
  · exact ⟨rfl, rfl⟩

/-- Round-robin selection on a nonempty availability list returns a member of
the list. -/
lemma rr_mem (st : AllocState) (avail : List Nat) (b : Bool) (h : avail ≠ []) :
    ∃ c st', _select_client_round_robin st avail b = some (c, st') ∧ c ∈ avail := by
  unfold _select_client_round_robin
  rw [if_neg h]
  have hlen : 0 < avail.length := List.length_pos.mpr h
  have hmem : ∀ idx : Nat,
      avail.getD (if idx ≥ avail.length then 0 else idx) 0 ∈ avail := by
    intro idx
    by_cases hc : idx ≥ avail.length
    · rw [if_pos hc, List.getD_eq_getElem avail 0 hlen]
      exact List.getElem_mem hlen
    · rw [if_neg hc, List.getD_eq_getElem avail 0 (by omega)]
      exact List.getElem_mem (by omega)
  cases b with
  | true => exact ⟨_, _, rfl, hmem _⟩
  | false => exact ⟨_, _, rfl, hmem _⟩

/-- C5: under exhaustion, a small-file acquisition with every small-preferred
connection unavailable and some large-preferred connection available is served
by a large-preferred connection; a large-file acquisition with every
large-preferred connection unavailable fails with `NoClientsAvailableError`
even when small-preferred connections are available (no large → small
overflow). -/
theorem acquire_overflow_semantics (st : AllocState) (now file_size : Nat)
    (task_id : String) :
    (file_size < st.small_file_threshold_bytes →
     (∀ c ∈ (_client_groups (connectedClients st)).1,
        _is_client_available st now c = false) →
     (∃ c ∈ (_client_groups (connectedClients st)).2,
        _is_client_available st now c = true) →
     ∃ c st', acquire_client_for_download st now file_size task_id = .allocated c st' ∧
       c ∈ (_client_groups (connectedClients st)).2) ∧
    (st.small_file_threshold_bytes ≤ file_size →
     (∀ c ∈ (_client_groups (connectedClients st)).2,
        _is_client_available st now c = false) →
     (∃ c ∈ (_client_groups (connectedClients st)).1,
        _is_client_available st now c = true) →
     acquire_client_for_download st now file_size task_id = .noClientsAvailable) := by
  constructor
  · intro hsmall hns hl
    obtain ⟨c0, hc0g, hc0a⟩ := hl
    simp only [acquire_client_for_download, calc_groups_fst, calc_groups_avail]
    rw [if_pos hsmall]
    have hfs : (_client_groups (connectedClients st)).1.filter
        (_is_client_available st now) = [] :=
      List.filter_eq_nil_iff.mpr (fun a ha => by rw [hns a ha]; exact Bool.false_ne_true)
    have hfl : (_client_groups (connectedClients st)).2.filter
        (_is_client_available st now) ≠ [] :=
      List.ne_nil_of_mem (List.mem_filter.mpr ⟨hc0g, hc0a⟩)
    rw [hfs]
    rw [show _select_client_round_robin (_calculate_client_groups st).2 [] true = none
      from rfl]
    obtain ⟨c, st', hsel, hcm⟩ :=
      rr_mem (_calculate_client_groups st).2
        ((_client_groups (connectedClients st)).2.filter (_is_client_available st now))
        false hfl
    rw [hsel]
    exact ⟨c, _, rfl, (List.mem_filter.mp hcm).1⟩
  · intro hlarge hnl _hsome
    simp only [acquire_client_for_download, calc_groups_fst, calc_groups_avail]
    rw [if_neg (by omega)]
    have hfl : (_client_groups (connectedClients st)).2.filter
        (_is_client_available st now) = [] :=
      List.filter_eq_nil_iff.mpr (fun a ha => by rw [hnl a ha]; exact Bool.false_ne_true)
    rw [hfl]
    rfl

/-- C4: `release_client` releases (status `IDLE`, binding removed) exactly
when the recorded task matches; with no recorded task it still forces `IDLE`
(so a double release for the same task ends `IDLE`, not in an error); with a
different recorded task it changes nothing. -/
theorem release_client_semantics (st : AllocState) (client_id : Nat) (task_id : String) :
    (st.client_tasks client_id = some task_id →
      (release_client st client_id task_id).client_states client_id = .idle ∧
      (release_client st client_id task_id).client_tasks client_id = none) ∧
    (st.client_tasks client_id = none →
      (release_client st client_id task_id).client_states client_id = .idle ∧
      (release_client st client_id task_id).client_tasks client_id = none) ∧
    (∀ t, st.client_tasks client_id = some t → t ≠ task_id →
      release_client st client_id task_id = st) ∧
    (st.client_tasks client_id = some task_id →
      (release_client (release_client st client_id task_id) client_id
          task_id).client_states client_id = .idle) := by
  refine ⟨?_, ?_, ?_, ?_⟩
  · intro h
    simp [release_client, h, updF]
  · intro h
    simp [release_client, h, updF]
  · intro t h hne
    simp [release_client, h, hne]
  · intro h
    simp [release_client, h, updF]

/-- A demonstration allocator state for the release semantics: one connected
busy client `1` bound to task `"t1"`. -/
def releaseDemoState : AllocState where
  all_clients := [1]
  connected := fun _ => true
  client_states := fun _ => .busy
  client_tasks := fun c => if c = 1 then some "t1" else none
  flood_wait_until := fun _ => none
  small_preferred_index := 0
  large_preferred_index := 0
  last_client_count := 1
  small_file_threshold_bytes := 314572800

/-- Closed witness for C4: releasing client `1` from its recorded task `"t1"`
idles it and clears the binding. -/
theorem release_client_semantics_witness :
    releaseDemoState.client_tasks 1 = some "t1" ∧
    (release_client releaseDemoState 1 "t1").client_states 1 = .idle ∧
    (release_client releaseDemoState 1 "t1").client_tasks 1 = none :=
  ⟨rfl, ((release_client_semantics releaseDemoState 1 "t1").1 rfl).1,
    ((release_client_semantics releaseDemoState 1 "t1").1 rfl).2⟩

/-- Pool of three connected clients `[1, 2, 3]` (groups `[1]` / `[2, 3]`)
where the small-preferred client `1` and large-preferred client `2` are busy
and `3` is idle. -/
def acquireDemoA : AllocState where
  all_clients := [1, 2, 3]
  connected := fun _ => true
  client_states := fun c => if c = 3 then .idle else .busy
  client_tasks := fun _ => none
  flood_wait_until := fun _ => none
  small_preferred_index := 0
  large_preferred_index := 0
  last_client_count := 3
  small_file_threshold_bytes := 314572800

/-- Pool of three connected clients `[1, 2, 3]` where both large-preferred
clients `2` and `3` are busy and the small-preferred client `1` is idle. -/
def acquireDemoB : AllocState where
  all_clients := [1, 2, 3]
  connected := fun _ => true
  client_states := fun c => if c = 1 then .idle else .busy
  client_tasks := fun _ => none
  flood_wait_until := fun _ => none
  small_preferred_index := 0
  large_preferred_index := 0
  last_client_count := 3
  small_file_threshold_bytes := 314572800

/-- Closed witness for C5: a 100-byte (small) download overflows onto a
large-preferred client when the small group is exhausted, and a 500 MB (large)
download fails when the large group is exhausted even though client `1` of the
small group is idle. -/
theorem acquire_overflow_semantics_witness :
    (∃ c st', acquire_client_for_download acquireDemoA 0 100 "t" = .allocated c st' ∧
       c ∈ (_client_groups (connectedClients acquireDemoA)).2) ∧
    acquire_client_for_download acquireDemoB 0 500000000 "t" = .noClientsAvailable :=
  ⟨(acquire_overflow_semantics acquireDemoA 0 100 "t").1
      (by decide) (by decide) (by decide),
   (acquire_overflow_semantics acquireDemoB 0 500000000 "t").2
      (by decide) (by decide) (by decide)⟩

/-- C6: the connected-pool partition of `_calculate_client_groups`: one
connection serves both groups; two connections split one and one; for
`N > 2` the small-preferred group has `((N - 2) + (N mod 2)) / 2` members and
the large-preferred group the remaining `N` minus that size. -/
theorem client_groups_partition (l : List Nat) :
    (l.length = 1 → _client_groups l = (l, l)) ∧
    (l.length = 2 → (_client_groups l).1.length = 1 ∧ (_client_groups l).2.length = 1) ∧
    (2 < l.length →
      (_client_groups l).1.length = ((l.length - 2) + l.length % 2) / 2 ∧
      (_client_groups l).2.length = l.length - ((l.length - 2) + l.length % 2) / 2) := by
  refine ⟨?_, ?_, ?_⟩
  · intro h
    simp [_client_groups, h]
  · intro h
    simp [_client_groups, h]
  · intro h
    rw [_client_groups]
    simp only [if_neg (by omega : ¬ l.length ≤ 2)]
    constructor
    · simp only [List.length_take]
      omega
    · simp only [List.length_drop]

/-- Closed witness for C6 at pools of 1, 2 and 6 connections
(`N=6` gives the spec's small=2, large=4). -/
theorem client_groups_partition_witness :
    _client_groups [7] = ([7], [7]) ∧
    ((_client_groups [4, 5]).1.length = 1 ∧ (_client_groups [4, 5]).2.length = 1) ∧
    ((_client_groups [1, 2, 3, 4, 5, 6]).1.length = (6 - 2 + 6 % 2) / 2 ∧
     (_client_groups [1, 2, 3, 4, 5, 6]).2.length = 6 - (6 - 2 + 6 % 2) / 2) :=
  ⟨(client_groups_partition [7]).1 rfl,
   (client_groups_partition [4, 5]).2.1 rfl,
   (client_groups_partition [1, 2, 3, 4, 5, 6]).2.2 (by decide)⟩

/-! ### The download route's range handling
(`StreamBot/web/web.py::parse_range_header` and `_stream_file_to_response`). -/

/-- The `Content-Range` response header: `bytes {first}-{last}/{size}` or the
unsatisfiable form `bytes */{size}`. -/
inductive ContentRange
  | rangeOf (first last size : Int)
  | unsat (size : Int)
deriving DecidableEq

/-- Structured model of the `Range` request-header strings
`parse_range_header` sees: `bytes={start}-{end}` where either field may be
empty (`none`); every other string (wrong prefix, no dash, non-integer
fields — the latter raise `ValueError`, which the source catches) is
`malformed`. -/
inductive RangeHeader
  | malformed
  | bytesSpec (startField endField : Option Int)
deriving DecidableEq

/-- Model of `parse_range_header` (web.py lines 162-193): empty start
defaults to `0`, empty end to `file_size - 1`; reject when
`until_bytes > file_size` or `from_bytes < 0` or `until_bytes < from_bytes`;
then clamp `until_bytes` to `file_size - 1`. -/
def parse_range_header (h : RangeHeader) (file_size : Int) : Option (Int × Int) :=
  match h with
  | .malformed => none
  | .bytesSpec startField endField =>
    let from_bytes := startField.getD 0
    let until_bytes := endField.getD (file_size - 1)
    if until_bytes > file_size ∨ from_bytes < 0 ∨ until_bytes < from_bytes then none
    else some (from_bytes, min until_bytes (file_size - 1))

/-- Model of `stream_file_chunks` (web.py lines 196-263), instrumented with
whether the chunk plan was computed: the source validates the parameters
first and raises `ValueError` before calling `calculate_chunk_parameters` or
issuing any upstream read; otherwise it drives the trimmed chunk loop over
the failure-free backend and writes each nonempty slice.  Returns
`(planComputed, bytes written)`. -/
def stream_file_chunks (file : List Nat) (from_bytes until_bytes : Int)
    (chunk_size : Nat) : Bool × List Nat :=
  if validate_streaming_parameters from_bytes until_bytes (file.length : Int)
      (chunk_size : Int) then
    let plan := calculate_chunk_parameters from_bytes.toNat until_bytes.toNat chunk_size
    (true, ((yield_file (pureRead file chunk_size)
        plan.1 plan.2.1 plan.2.2.1 plan.2.2.2 chunk_size).1).flatten)
  else (false, [])

/-- What one `_stream_file_to_response` invocation did: the response status
and headers, whether the chunk plan was computed and the chunk engine loop
entered, the data bytes written, and whether the client was released (the
416 path releases explicitly before raising; the zero-byte path releases
before returning; every other path releases in the `finally` block). -/
structure StreamOutcome where
  status : Nat
  contentRange : Option ContentRange
  contentLength : Int
  planComputed : Bool
  chunkEngineStarted : Bool
  body : List Nat
  released : Bool
deriving DecidableEq

/-- The tail of `_stream_file_to_response` after the headers are fixed: the
zero-byte early return (`until - from + 1 == 0 and file_size == 0`), else the
chunk-streaming call. -/
def streamTail (file : List Nat) (chunk_size : Nat) (from_bytes until_bytes : Int)
    (status : Nat) (cr : Option ContentRange) (cl : Int) : StreamOutcome :=
  if until_bytes - from_bytes + 1 = 0 ∧ (file.length : Int) = 0 then
    { status := status, contentRange := cr, contentLength := cl,
      planComputed := false, chunkEngineStarted := false, body := [],
      released := true }
  else
    let run := stream_file_chunks file from_bytes until_bytes chunk_size
    { status := status, contentRange := cr, contentLength := cl,
      planComputed := run.1, chunkEngineStarted := run.1, body := run.2,
      released := true }

/-- Model of `_stream_file_to_response` (web.py lines 369-518): absent header
serves `[0, size - 1]` (0 when the size is 0) as 200 with
`Content-Length = size`; a present header is parsed — `None` yields 416 with
`Content-Range: bytes */size`, otherwise 206 with
`Content-Range: bytes from-until/size` and the matching `Content-Length`. -/
def _stream_file_to_response (file : List Nat) (header : Option RangeHeader)
    (chunk_size : Nat) : StreamOutcome :=
  let file_size : Int := (file.length : Int)
  match header with
  | some h =>
    match parse_range_header h file_size with
    | none =>
      { status := 416, contentRange := some (.unsat file_size), contentLength := 0,
        planComputed := false, chunkEngineStarted := false, body := [],
        released := true }
    | some (from_bytes, until_bytes) =>
      streamTail file chunk_size from_bytes until_bytes 206
        (some (.rangeOf from_bytes until_bytes file_size))
        (until_bytes - from_bytes + 1)
  | none =>
    let until_bytes : Int := if file_size > 0 then file_size - 1 else 0
    streamTail file chunk_size 0 until_bytes 200 none file_size

/-- Counterexample to C3 as stated: on a 1-byte file, the parsed range
`(0, 1)` violates `end < size` (`1 < 1` is false), so the claim demands 416 —
but `parse_range_header` only rejects `end > size`, clamps `end` to
`size - 1`, and the route answers 206 with `Content-Range: bytes 0-0/1`. -/
theorem range_end_equal_size_not_416 :
    (_stream_file_to_response [0] (some (.bytesSpec (some 0) (some 1))) 1024).status
      = 206 ∧
    (_stream_file_to_response [0] (some (.bytesSpec (some 0) (some 1))) 1024).status
      ≠ 416 ∧
    (_stream_file_to_response [0] (some (.bytesSpec (some 0) (some 1))) 1024).contentRange
      = some (.rangeOf 0 0 1) :=
  ⟨rfl, by decide, rfl⟩

/-- C3 (amended): with `S` the file size, a parsed range `(start, end)` (an
empty start field defaults to `0`, an empty end field to `S - 1`) is rejected
with 416 and `Content-Range: bytes */S` exactly when `end > S` or `start < 0`
or `end < start`; when `0 ≤ start ≤ end ≤ S` the route responds 206 with
`Content-Range: bytes start-min(end, S-1)/S` and the matching
`Content-Length` (so `end = S` is clamped, not rejected); an absent `Range`
header serves the full file as 200 with `Content-Length = S`. -/
theorem range_response_semantics (file : List Nat) (s e : Option Int)
    (chunk_size : Nat) :
    ((e.getD ((file.length : Int) - 1) > (file.length : Int) ∨ s.getD 0 < 0 ∨
        e.getD ((file.length : Int) - 1) < s.getD 0) →
      (_stream_file_to_response file (some (.bytesSpec s e)) chunk_size).status = 416 ∧
      (_stream_file_to_response file (some (.bytesSpec s e)) chunk_size).contentRange
        = some (.unsat (file.length : Int))) ∧
    ((0 ≤ s.getD 0 ∧ s.getD 0 ≤ e.getD ((file.length : Int) - 1) ∧
        e.getD ((file.length : Int) - 1) ≤ (file.length : Int)) →
      (_stream_file_to_response file (some (.bytesSpec s e)) chunk_size).status = 206 ∧
      (_stream_file_to_response file (some (.bytesSpec s e)) chunk_size).contentRange
        = some (.rangeOf (s.getD 0)
            (min (e.getD ((file.length : Int) - 1)) ((file.length : Int) - 1))
            (file.length : Int)) ∧
      (_stream_file_to_response file (some (.bytesSpec s e)) chunk_size).contentLength
        = min (e.getD ((file.length : Int) - 1)) ((file.length : Int) - 1)
            - s.getD 0 + 1) ∧
    ((_stream_file_to_response file none chunk_size).status = 200 ∧
     (_stream_file_to_response file none chunk_size).contentRange = none ∧
     (_stream_file_to_response file none chunk_size).contentLength
       = (file.length : Int)) := by
  refine ⟨?_, ?_, ?_⟩
  · intro h
    have hp : parse_range_header (.bytesSpec s e) (file.length : Int) = none := by
      simp only [parse_range_header]
      rw [if_pos h]
    simp only [_stream_file_to_response, hp]
    constructor <;> trivial
  · intro h
    have hp : parse_range_header (.bytesSpec s e) (file.length : Int)
        = some (s.getD 0, min (e.getD ((file.length : Int) - 1))
            ((file.length : Int) - 1)) := by
      simp only [parse_range_header]
      rw [if_neg (by omega)]
    simp only [_stream_file_to_response, hp, streamTail]
    split
    · refine ⟨?_, ?_, ?_⟩ <;> trivial
    · refine ⟨?_, ?_, ?_⟩ <;> trivial
  · simp only [_stream_file_to_response, streamTail]
    split <;> split <;> (refine ⟨?_, ?_, ?_⟩ <;> trivial)

/-- Closed witness for C3's amended theorem: on a 3-byte file, `bytes=1-2` is
served as 206 `bytes 1-2/3`, and `bytes=5-2` is rejected with 416. -/
theorem range_response_semantics_witness :
    ((_stream_file_to_response [5, 6, 7] (some (.bytesSpec (some 1) (some 2))) 64).status
        = 206 ∧
     (_stream_file_to_response [5, 6, 7] (some (.bytesSpec (some 1) (some 2))) 64).contentRange
        = some (.rangeOf 1 (min (2 : Int) ((([5, 6, 7] : List Nat).length : Int) - 1))
            (([5, 6, 7] : List Nat).length : Int)) ∧
     (_stream_file_to_response [5, 6, 7] (some (.bytesSpec (some 1) (some 2))) 64).contentLength
        = min (2 : Int) ((([5, 6, 7] : List Nat).length : Int) - 1) - 1 + 1) ∧
    ((_stream_file_to_response [5, 6, 7] (some (.bytesSpec (some 5) (some 2))) 64).status
        = 416 ∧
     (_stream_file_to_response [5, 6, 7] (some (.bytesSpec (some 5) (some 2))) 64).contentRange
        = some (.unsat (([5, 6, 7] : List Nat).length : Int))) :=
  ⟨(range_response_semantics [5, 6, 7] (some 1) (some 2) 64).2.1
      ⟨by decide, by decide, by decide⟩,
   (range_response_semantics [5, 6, 7] (some 5) (some 2) 64).1 (by decide)⟩

/-- C8: a request for a zero-byte file never reaches the chunk engine's range
math — no chunk plan is computed and the engine loop issuing upstream reads is
never entered — the data body is empty and the connection is released.  (With
no `Range` header the parameter validation fails before the plan is computed;
with one, the route answers 416 — or, for `bytes=0-0`, takes the zero-byte
early return.) -/
theorem zero_byte_skips_chunk_math (file : List Nat) (hlen : file.length = 0)
    (header : Option RangeHeader) (chunk_size : Nat) :
    (_stream_file_to_response file header chunk_size).planComputed = false ∧
    (_stream_file_to_response file header chunk_size).chunkEngineStarted = false ∧
    (_stream_file_to_response file header chunk_size).body = [] ∧
    (_stream_file_to_response file header chunk_size).released = true := by
  have hfile : file = [] := List.eq_nil_of_length_eq_zero hlen
  subst hfile
  match header with
  | none => exact ⟨rfl, rfl, rfl, rfl⟩
  | some .malformed => exact ⟨rfl, rfl, rfl, rfl⟩
  | some (.bytesSpec s e) =>
    by_cases hc : (e.getD ((0 : Int) - 1) > (0 : Int) ∨ s.getD 0 < 0 ∨
        e.getD ((0 : Int) - 1) < s.getD 0)
    · have hp : parse_range_header (.bytesSpec s e) ((([] : List Nat)).length : Int)
          = none := by
        simp only [parse_range_header, List.length_nil, Nat.cast_zero]
        rw [if_pos hc]
      simp only [_stream_file_to_response, hp]
      refine ⟨?_, ?_, ?_, ?_⟩ <;> trivial
    · have hp : parse_range_header (.bytesSpec s e) ((([] : List Nat)).length : Int)
          = some (s.getD 0, min (e.getD ((0 : Int) - 1)) ((0 : Int) - 1)) := by
        simp only [parse_range_header, List.length_nil, Nat.cast_zero]
        rw [if_neg hc]
      simp only [_stream_file_to_response, hp]
      rw [streamTail, if_pos ?_]
      · exact ⟨rfl, rfl, rfl, rfl⟩
      · exact ⟨by omega, by simp⟩

/-- Closed witness for C8: a zero-byte file requested without a `Range`
header. -/
theorem zero_byte_skips_chunk_math_witness :
    ([] : List Nat).length = 0 ∧
    ((_stream_file_to_response [] none 1024).planComputed = false ∧
     (_stream_file_to_response [] none 1024).chunkEngineStarted = false ∧
     (_stream_file_to_response [] none 1024).body = [] ∧
     (_stream_file_to_response [] none 1024).released = true) :=
  ⟨rfl, zero_byte_skips_chunk_math [] rfl none 1024⟩

/-! ### The download route's retry wrapper (`web.py::download_route`,
`is_retryable_error`, and the allocation step of
`_execute_download_logic`). -/

/-- The error classes `download_route` distinguishes.  `httpEx s` stands for
any `aiohttp` `web.HTTPException` carrying status `s`; the remaining
constructors are the exception classes of `is_retryable_error`'s
`retryable_types` tuple plus a catch-all `otherEx`. -/
inductive DownloadErr
  | httpEx (status : Nat)
  | noClients
  | rpcError
  | timeoutError
  | connectionError
  | offsetInvalid
  | fileReference
  | otherEx
deriving DecidableEq

/-- `is_retryable_error` (web.py lines 46-61): `HTTPNotFound`/`HTTPGone`/
`HTTPBadRequest` are explicitly not retried, and no other `HTTPException` is
an instance of `retryable_types` either; `OffsetInvalid`, `ConnectionError`,
`TimeoutError`, `RPCError`, `NoClientsAvailableError` and the file-reference
errors are retryable; anything else is not. -/
def is_retryable_error : DownloadErr → Bool
  | .httpEx _ => false
  | .otherEx => false
  | _ => true

/-- `MAX_RETRIES` (web.py line 34). -/
def MAX_RETRIES : Nat := 2

/-- The client-allocation step of `_execute_download_logic` (web.py lines
336-347): use the intelligent allocator's result; only on
`NoClientsAvailableError` fall back to `client_manager.get_streaming_client()`
(which itself raises `NoClientsAvailableError` when nothing is connected). -/
def _allocation_step (allocRes fallbackRes : Except DownloadErr Nat) :
    Except DownloadErr Nat :=
  match allocRes with
  | .ok c => .ok c
  | .error .noClients => fallbackRes
  | .error e => .error e

/-- The retry loop of `download_route` (web.py lines 300-320) over the
per-attempt outcomes: on the final attempt (`attempt == MAX_RETRIES`) or a
non-retryable error, re-raise an `HTTPException` as its own status and
convert every other exception to `HTTPInternalServerError` (500); otherwise
sleep and retry.  The result is the response (`.ok`) or the HTTP error status
(`.error`).  The fuel is `MAX_RETRIES + 1`, the exact number of loop
iterations, so the `0` case is unreachable. -/
def download_route_retry (attemptResult : Nat → Except DownloadErr Nat) :
    Nat → Nat → Except Nat Nat
  | 0, _ => .error 500
  | fuel + 1, attempt =>
    match attemptResult attempt with
    | .ok r => .ok r
    | .error e =>
      if attempt = MAX_RETRIES ∨ ¬ is_retryable_error e then
        match e with
        | .httpEx s => .error s
        | _ => .error 500
      else download_route_retry attemptResult fuel (attempt + 1)

/-- `download_route`'s wrapper: `for attempt in range(MAX_RETRIES + 1)`. -/
def download_route (attemptResult : Nat → Except DownloadErr Nat) : Except Nat Nat :=
  download_route_retry attemptResult (MAX_RETRIES + 1) 0

/-- Counterexample to C7 as stated: when the allocator and the round-robin
fallback both fail with `NoClientsAvailableError` on every attempt, the route
retries (the error is in `retryable_types`) and finally converts it — not an
`HTTPException` — to `HTTPInternalServerError`: the response status is 500,
not 503. -/
theorem no_clients_yields_500 :
    _allocation_step (.error .noClients) (.error .noClients) = .error .noClients ∧
    download_route (fun _ => _allocation_step (.error .noClients) (.error .noClients))
      = .error 500 ∧
    download_route (fun _ => _allocation_step (.error .noClients) (.error .noClients))
      ≠ .error 503 := by
  refine ⟨rfl, rfl, ?_⟩
  rw [show download_route (fun _ => _allocation_step (.error .noClients)
    (.error .noClients)) = .error 500 from rfl]
  simp

/-- C7 (amended): a download request whose every attempt fails in the
Allocating step with `NoConnectionsAvailable` (allocator and fallback both
exhausted) is answered 500 after the retry loop, never 503. -/
theorem no_clients_exhaustion_responds_500
    (attemptResult : Nat → Except DownloadErr Nat)
    (h : ∀ a, a ≤ MAX_RETRIES → attemptResult a = .error .noClients) :
    download_route attemptResult = .error 500 ∧
    download_route attemptResult ≠ .error 503 := by
  have h0 := h 0 (by decide)
  have h1 := h 1 (by decide)
  have h2 := h 2 (by decide)
  have e1 : download_route attemptResult = .error 500 := by
    simp [download_route, download_route_retry, MAX_RETRIES, h0, h1, h2,
      is_retryable_error]
  refine ⟨e1, by rw [e1]; simp⟩

/-- Closed witness for C7's amended theorem: every attempt sees the allocator
and the fallback fail. -/
theorem no_clients_exhaustion_responds_500_witness :
    (∀ a, a ≤ MAX_RETRIES →
      (fun _ : Nat => _allocation_step (.error .noClients) (.error .noClients)) a
        = .error .noClients) ∧
    download_route (fun _ : Nat => _allocation_step (.error .noClients)
        (.error .noClients)) = .error 500 ∧
    download_route (fun _ : Nat => _allocation_step (.error .noClients)
        (.error .noClients)) ≠ .error 503 :=
  ⟨fun _ _ => rfl,
   (no_clients_exhaustion_responds_500 _ (fun _ _ => rfl)).1,
   (no_clients_exhaustion_responds_500 _ (fun _ _ => rfl)).2⟩

/-! ### The public link-id decoder
(`StreamBot/utils/utils.py::decode_message_id`, `get_id_encoder_key`) and the
id validation of `download_route` (web.py lines 277-287). -/

/-- `get_id_encoder_key`: `abs(LOG_CHANNEL)`, or the fallback prime when the
channel is 0. -/
def get_id_encoder_key (log_channel : Int) : Nat :=
  let key := log_channel.natAbs
  if key = 0 then 961748927 else key

/-- The hex-character test of `decode_message_id` line 134:
`c in '0123456789abcdefABCDEF'`. -/
def isHexChar (c : Char) : Bool :=
  "0123456789abcdefABCDEF".toList.contains c

/-- The base64url character test of lines 139-144:
`string.ascii_letters + string.digits + '-_'`. -/
def isBase64UrlChar (c : Char) : Bool :=
  "ABCDEFGHIJKLMNOPQRSTUVWXYZabcdefghijklmnopqrstuvwxyz0123456789-_".toList.contains c

/-- The 6-bit value of a base64url alphabet character (meaningful only on
characters accepted by `isBase64UrlChar`, which the caller checks first). -/
def b64Value (c : Char) : Nat :=
  if 'A' ≤ c ∧ c ≤ 'Z' then c.toNat - 65
  else if 'a' ≤ c ∧ c ≤ 'z' then c.toNat - 97 + 26
  else if '0' ≤ c ∧ c ≤ '9' then c.toNat - 48 + 52
  else if c = '-' then 62
  else 63

/-- Regroup 6-bit values into bytes, front group of four first.  A final
group of one value is the `binascii.Error` Python raises for input of length
`≡ 1 (mod 4)` even after its `=` padding; final groups of two or three values
are what the added padding turns into one or two bytes. -/
def b64Groups : List Nat → Option (List Nat)
  | [] => some []
  | [_] => none
  | [a, b] => some [a * 4 + b / 16]
  | [a, b, c] => some [a * 4 + b / 16, b % 16 * 16 + c / 4]
  | a :: b :: c :: d :: rest =>
    match b64Groups rest with
    | none => none
    | some tl =>
      some ((a * 4 + b / 16) :: (b % 16 * 16 + c / 4) :: (c % 4 * 64 + d) :: tl)

/-- Model of `base64.urlsafe_b64decode((s + padding).encode())` on a string
whose characters were already validated against the base64url alphabet. -/
def urlsafe_b64decode (cs : List Char) : Option (List Nat) :=
  b64Groups (cs.map b64Value)

/-- Model of `decoded_bytes.decode('utf-8')` on the decoder's payload: the
meaningful payloads are ASCII decimal strings (what `encode_message_id`
produces), so bytes above 127 are modelled as a failed decode.  (Python would
accept a valid multi-byte UTF-8 sequence, but its characters then fail the
integer conversion that immediately follows, apart from exotic Unicode
digits.) -/
def decodeAscii : List Nat → Option (List Char)
  | [] => some []
  | b :: bs =>
    if b < 128 then (decodeAscii bs).map fun tl => Char.ofNat b :: tl
    else none

/-- One decimal digit. -/
def digitVal (c : Char) : Option Nat :=
  if '0' ≤ c ∧ c ≤ '9' then some (c.toNat - 48) else none

/-- Decimal accumulator for `int()`. -/
def parseNatDigitsAux : List Char → Nat → Option Nat
  | [], acc => some acc
  | c :: cs, acc =>
    match digitVal c with
    | some d => parseNatDigitsAux cs (acc * 10 + d)
    | none => none

/-- Model of `int(transformed_id_str)`: an optional minus sign followed by at
least one decimal digit.  (Python's `int()` additionally tolerates
surrounding whitespace, a plus sign and underscores; no claim exercises
those.) -/
def pyInt (cs : List Char) : Option Int :=
  match cs with
  | [] => none
  | '-' :: rest =>
    if rest = [] then none
    else (parseNatDigitsAux rest 0).map fun n => -(n : Int)
  | _ => (parseNatDigitsAux cs 0).map fun n => (n : Int)

/-- Model of `decode_message_id` (utils.py lines 120-187): the guard chain —
empty input, the 200-character DoS limit, the purely-hexadecimal rejection,
the base64url character validation — then base64 decode, UTF-8 decode,
integer conversion, the key-divisibility check, the bounds check and the
re-encoding verification.  (On the values that reach them, Python's `//` and
`%` agree with Lean's `Int` division and `emod`: the dividend is an exact
multiple of the positive key.) -/
def decode_message_id (log_channel : Int) (encoded_id_str : List Char) : Option Int :=
  if encoded_id_str = [] then none
  else if 200 < encoded_id_str.length then none
  else if encoded_id_str.all isHexChar then none
  else if ¬ encoded_id_str.all isBase64UrlChar then none
  else
    let key := get_id_encoder_key log_channel
    match urlsafe_b64decode encoded_id_str with
    | none => none
    | some decoded_bytes =>
      match decodeAscii decoded_bytes with
      | none => none
      | some transformed_id_str =>
        match pyInt transformed_id_str with
        | none => none
        | some transformed_id =>
          if transformed_id % (key : Int) ≠ 0 then none
          else
            let original_message_id := transformed_id / (key : Int)
            if original_message_id ≤ 0 ∨ original_message_id > 2 ^ 63 then none
            else if original_message_id * (key : Int) ≠ transformed_id then none
            else some original_message_id

/-- The id validation prefix of `download_route` (web.py lines 277-287):
empty or over-long ids and ids `decode_message_id` rejects are answered
`HTTPBadRequest` (400); `none` means validation passed. -/
def download_route_id_validation (log_channel : Int) (encoded_id : List Char) :
    Option Nat :=
  if encoded_id = [] ∨ 100 < encoded_id.length then some 400
  else if decode_message_id log_channel encoded_id = none then some 400
  else none

/-- C10: every link id consisting solely of hexadecimal characters is
rejected by `decode_message_id` (the hex guard fires before base64 decoding,
so even a valid-base64url hex string is refused), and the `/dl` route answers
400 for it. -/
theorem hex_ids_rejected (log_channel : Int) (encoded_id : List Char)
    (hhex : encoded_id.all isHexChar = true) :
    decode_message_id log_channel encoded_id = none ∧
    download_route_id_validation log_channel encoded_id = some 400 := by
  have hdec : decode_message_id log_channel encoded_id = none := by
    unfold decode_message_id
    split
    · rfl
    · split
      · rfl
      · rfl
  refine ⟨hdec, ?_⟩
  unfold download_route_id_validation
  split
  · rfl
  · rfl

/-- Closed witness for C10: the purely-hexadecimal id `deadbeef` — which is
also well-formed base64url — is rejected and answered 400. -/
theorem hex_ids_rejected_witness :
    ("deadbeef".toList.all isHexChar = true) ∧
    decode_message_id (-1001234567890) "deadbeef".toList = none ∧
    download_route_id_validation (-1001234567890) "deadbeef".toList = some 400 :=
  ⟨by decide,
   (hex_ids_rejected (-1001234567890) "deadbeef".toList (by decide)).1,
   (hex_ids_rejected (-1001234567890) "deadbeef".toList (by decide)).2⟩

end StreamBot
